import Mathlib

set_option maxHeartbeats 1600000

set_option maxRecDepth 16384

/-!
Shallow embedding of the elementpath XSD atomic-datatype core
(src/elementpath/datatypes.py and src/elementpath/xpath2_constructors.py).

Machine conventions used throughout:
* Python `int` is embedded as `Int`; Python `decimal.Decimal` as `ℚ`
  (exact arithmetic; the `float(...)` conversions of the source are modelled
  as exact, which they are on every value the theorems exercise).
* Python `//` and `%` on integers are floor division and the matching
  remainder; with the positive divisors used by the source they coincide
  with `Int.ediv` / `Int.emod`, which is what the embedding uses.
* `int(x)` for `x : Decimal` truncates toward zero: `pyTrunc`.
* A raised exception is embedded as `none` / the `none` branch of `Option`.
-/

/-- calendar.isleap, with Python modulo semantics (also for negative years). -/
def isleap (y : Int) : Bool :=
  y % 4 == 0 && (y % 100 != 0 || y % 400 == 0)

/-- MONTH_DAYS table from datatypes.py (index 0 unused). -/
def MONTH_DAYS : List Int := [0, 31, 28, 31, 30, 31, 30, 31, 31, 30, 31, 30, 31]

/-- MONTH_DAYS_LEAP table from datatypes.py (index 0 unused). -/
def MONTH_DAYS_LEAP : List Int := [0, 31, 29, 31, 30, 31, 30, 31, 31, 30, 31, 30, 31]

/-- `MONTH_DAYS_LEAP if leap else MONTH_DAYS`. -/
def monthTable (leap : Bool) : List Int :=
  if leap then MONTH_DAYS_LEAP else MONTH_DAYS

/-- `month_table[m]`: length in days of month `m` (1..12). -/
def monthLen (leap : Bool) (m : Int) : Int :=
  (monthTable leap).getD m.toNat 0

/-- `sum(month_table[x] for x in range(a, b))`. -/
def sumMonthDays (leap : Bool) (a b : Int) : Int :=
  (((monthTable leap).drop a.toNat).take (b - a).toNat).sum

/-- days of the year strictly before the 1st of month `m`:
`sum(month_table[x] for x in range(1, m))`. -/
def daysBeforeMonth (leap : Bool) (m : Int) : Int :=
  sumMonthDays leap 1 m

/-- days_from_common_era from datatypes.py. -/
def days_from_common_era (year : Int) : Int :=
  if 0 < year then 365 * year + year / 4 - year / 100 + year / 400
  else if -1 ≤ year then 366 * year
  else
    let y := -year - 1;
    -(366 + 365 * y + y / 4 - y / 100 + y / 400)

def DAYS_IN_4Y : Int := days_from_common_era 4

def DAYS_IN_100Y : Int := days_from_common_era 100

def DAYS_IN_400Y : Int := days_from_common_era 400

/-- calendar.leapdays(y1, y2): leap years in range(y1, y2). -/
def leapdays (y1 y2 : Int) : Int :=
  let a := y1 - 1
  let b := y2 - 1
  (b / 4 - a / 4) - (b / 100 - a / 100) + (b / 400 - a / 400)

/-- months2days from datatypes.py (including the vestigial sign branch). -/
def months2days (year month months_delta : Int) : Int :=
  if months_delta = 0 then 0
  else
    let total_months := month - 1 + months_delta
    let target_year := year + total_months / 12
    let target_month := total_months % 12 + 1
    let y_days :=
      if month ≤ 2 then 365 * (target_year - year) + leapdays year target_year
      else 365 * (target_year - year) + leapdays (year + 1) (target_year + 1)
    if month ≤ target_month then
      let m_days := sumMonthDays (isleap target_year) month target_month
      if 0 ≤ y_days then y_days + m_days else y_days + m_days
    else
      let m_days := sumMonthDays (isleap target_year) target_month month
      if 0 ≤ y_days then y_days - m_days else y_days - m_days

/-- A proleptic-Gregorian calendar day, the value carried by a
`datetime.date`/`datetime.datetime` date part. -/
structure CDate where
  y : Int
  m : Int
  d : Int
deriving DecidableEq

/-- The datetime library's validity constraint on a date triple
(year bounds handled separately by callers). -/
def validC (c : CDate) : Prop :=
  1 ≤ c.y ∧ 1 ≤ c.m ∧ c.m ≤ 12 ∧ 1 ≤ c.d ∧ c.d ≤ monthLen (isleap c.y) c.m

instance : DecidablePred validC := fun c => by unfold validC; infer_instance

/-- `datetime.date.toordinal`: 0001-01-01 is day 1. -/
def toOrd (c : CDate) : Int :=
  days_from_common_era (c.y - 1) + daysBeforeMonth (isleap c.y) c.m + c.d

/-- The next calendar day. -/
def succDay (c : CDate) : CDate :=
  if c.d < monthLen (isleap c.y) c.m then ⟨c.y, c.m, c.d + 1⟩
  else if c.m < 12 then ⟨c.y, c.m + 1, 1⟩
  else ⟨c.y + 1, 1, 1⟩

/-- The previous calendar day. -/
def predDay (c : CDate) : CDate :=
  if 1 < c.d then ⟨c.y, c.m, c.d - 1⟩
  else if 1 < c.m then ⟨c.y, c.m - 1, monthLen (isleap c.y) (c.m - 1)⟩
  else ⟨c.y - 1, 12, 31⟩

/-- `datetime.date.fromordinal (n + 1)`: the date `n` days after 0001-01-01. -/
def fromOrdNat : Nat → CDate
  | 0 => ⟨1, 1, 1⟩
  | n + 1 => succDay (fromOrdNat n)

/-- `int(x)` for a Decimal `x`: truncation toward zero. -/
def pyTrunc (q : ℚ) : Int :=
  if 0 ≤ q then ⌊q⌋ else -⌊-q⌋

/-- `datetime.timedelta(seconds=int(s), microseconds=int(s % 1 * 10**6))`
expressed in total microseconds, from DayTimeDuration.get_timedelta. -/
def tdOfSeconds (s : ℚ) : Int :=
  pyTrunc s * 1000000 + pyTrunc ((s - (pyTrunc s : ℚ)) * 1000000)

/-- An AbstractDateTime value: the fields of the internal `_dt` datetime
(`dtYear` is the stored anchor year), the timezone offset in minutes
(`none` = naive), and the out-of-range `_year` attribute. -/
structure XDT where
  dtYear : Int
  month : Int
  day : Int
  hour : Int
  minute : Int
  second : Int
  micro : Int
  tz : Option Int
  xyear : Option Int
deriving DecidableEq

/-- The `year` property: `self._year or self._dt.year`. -/
def yearProp (x : XDT) : Int :=
  x.xyear.getD x.dtYear

/-- The argument constraints of the `datetime.datetime` constructor for
month/day/time fields (year range handled by the caller). -/
def validDtFields (y mo d h mi s us : Int) : Prop :=
  1 ≤ mo ∧ mo ≤ 12 ∧ 1 ≤ d ∧ d ≤ monthLen (isleap y) mo ∧
    0 ≤ h ∧ h ≤ 23 ∧ 0 ≤ mi ∧ mi ≤ 59 ∧ 0 ≤ s ∧ s ≤ 59 ∧ 0 ≤ us ∧ us ≤ 999999

instance (y mo d h mi s us : Int) : Decidable (validDtFields y mo d h mi s us) := by
  unfold validDtFields; infer_instance

/-- `self._dt += timedelta(days=1)` on the stored datetime. -/
def addOneDayXDT (x : XDT) : XDT :=
  let c := succDay ⟨x.dtYear, x.month, x.day⟩
  { x with dtYear := c.y, month := c.m, day := c.d }

/-- AbstractDateTime.__init__ (datatypes.py): 24:00 wall-clock carry,
rejection of year 0, in-range storage for 1..9999, and anchor-year storage
(year 4 or 6, chosen by leap parity per spec version) for the rest.
`ver11 = true` models `version != '1.0'`. A `ValueError`/`TypeError` is `none`. -/
def mkAbstractDT (ver11 : Bool) (year month day hour minute second micro : Int)
    (tz : Option Int) : Option XDT :=
  let carry := hour = 24 ∧ minute = 0 ∧ second = 0
  let h : Int := if carry then 0 else hour
  if 1 ≤ year ∧ year ≤ 9999 then
    if validDtFields year month day h minute second micro then
      let base : XDT := ⟨year, month, day, h, minute, second, micro, tz, none⟩
      some (if carry then addOneDayXDT base else base)
    else none
  else if year = 0 then none
  else
    let anchor : Int := if isleap (year + (if ver11 then 1 else 0)) then 4 else 6
    if validDtFields anchor month day h minute second micro then
      let base : XDT := ⟨anchor, month, day, h, minute, second, micro, tz, some year⟩
      some (if carry then addOneDayXDT base else base)
    else none

/-- Date10/Date construction: `cls(year, month, day, tzinfo=tz)`. -/
def mkDate (ver11 : Bool) (year month day : Int) (tz : Option Int) : Option XDT :=
  mkAbstractDT ver11 year month day 0 0 0 0 tz

/-- The instant of the stored `_dt` under an assumed offset of `tzMin`
minutes, in microseconds from 0001-01-01T00:00:00 UTC. This is how aware
`datetime` values compare. -/
def instantMicro (x : XDT) (tzMin : Int) : Int :=
  ((toOrd ⟨x.dtYear, x.month, x.day⟩ - 1) * 86400 + x.hour * 3600 + x.minute * 60
      + x.second - tzMin * 60) * 1000000 + x.micro

/-- AbstractDateTime._get_operands: if exactly one operand is naive it is
replaced, for the comparison only, by a copy carrying the UTC offset. -/
def getOperandsPair (a b : XDT) : XDT × XDT :=
  if a.tz = b.tz ∧ a.tz = none then (a, b)
  else if a.tz = none then ({ a with tz := some 0 }, b)
  else if b.tz = none then (a, { b with tz := some 0 })
  else (a, b)

/-- Equality of the two `datetime` operands: field-wise when both are naive,
instant-based when both are aware; a naive/aware mix raises `TypeError`,
which `__eq__` turns into `False`. -/
def dtEqOperands (p q : XDT) : Bool :=
  match p.tz, q.tz with
  | none, none =>
    p.dtYear == q.dtYear && p.month == q.month && p.day == q.day &&
      p.hour == q.hour && p.minute == q.minute && p.second == q.second &&
      p.micro == q.micro
  | some tp, some tq => instantMicro p tp == instantMicro q tq
  | _, _ => false

/-- AbstractDateTime.__eq__: operand comparison plus the `year` property. -/
def xdtEqB (a b : XDT) : Bool :=
  dtEqOperands (getOperandsPair a b).1 (getOperandsPair a b).2 &&
    (yearProp a == yearProp b)

/-- OrderedDateTime.todelta in total microseconds.  For in-range values it
is the datetime subtraction `self._dt - datetime(1, 1, 1)` (after the
naive-side substitution of `_get_operands`); for out-of-range values it is
the explicit `days_from_common_era`-based computation of the source. -/
def todeltaMicro (x : XDT) : Int :=
  match x.xyear with
  | none =>
    ((toOrd ⟨x.dtYear, x.month, x.day⟩ - 1) * 86400 + x.hour * 3600 + x.minute * 60
        + x.second - (x.tz.getD 0) * 60) * 1000000 + x.micro
  | some yr =>
    let days :=
      if 0 < yr then days_from_common_era (yr - 1) + daysBeforeMonth (isleap yr) x.month
      else days_from_common_era yr + daysBeforeMonth (isleap (yr + 1)) x.month
    let deltaSec := (x.day - 1) * 86400 + x.hour * 3600 + x.minute * 60 + x.second
      - (if x.tz.isSome then (x.tz.getD 0) * 60 else 0)
    days * 86400000000 + deltaSec * 1000000 + x.micro

/-- OrderedDateTime.fromdelta for the Date classes (`cls(year, dt.month,
dt.day, tzinfo=dt.tzinfo)` tail).  `micro` is the timedelta in total
microseconds; `timedelta` normalization gives `days` by floor division.
The in-range case is `datetime(1, 1, 1) + delta`; the three `OverflowError`
branches follow the 400/100/4/1-year block arithmetic of the source. -/
def fromdeltaDate (ver11 : Bool) (adjust_timezone : Bool) (micro : Int) : Option XDT :=
  let days := micro / 86400000000
  let rem := micro % 86400000000
  let yc : Int × CDate :=
    if 0 ≤ days ∧ days ≤ 3652058 then
      let c := fromOrdNat days.toNat
      (c.y, c)
    else if 0 < days then
      let p1 := days / DAYS_IN_400Y
      let r1 := days % DAYS_IN_400Y
      let p2 := r1 / DAYS_IN_100Y
      let r2 := r1 % DAYS_IN_100Y
      let p3 := r2 / DAYS_IN_4Y
      let r3 := r2 % DAYS_IN_4Y
      let p4 := r3 / 365
      let r4 := r3 % 365
      let year0 := p1 * 400 + p2 * 100 + p3 * 4 + p4 + 1
      let yd : Int × Int := if p4 = 4 ∨ p2 = 4 then (year0 - 1, 365) else (year0, r4)
      let base : CDate := ⟨if isleap yd.1 then 4 else 6, 1, 1⟩
      (yd.1, fromOrdNat (toOrd base - 1 + yd.2).toNat)
    else if -366 ≤ days then
      (-1, fromOrdNat (toOrd ⟨5, 1, 1⟩ - 1 + days).toNat)
    else
      let nd := -days - 366
      let p1 := nd / DAYS_IN_400Y
      let r1 := nd % DAYS_IN_400Y
      let p2 := r1 / DAYS_IN_100Y
      let r2 := r1 % DAYS_IN_100Y
      let p3 := r2 / DAYS_IN_4Y
      let r3 := r2 % DAYS_IN_4Y
      let p4 := r3 / 365
      let r4 := r3 % 365
      let year0 := -(p1 * 400) - p2 * 100 - p3 * 4 - p4 - 2
      let yd : Int × Int := if p4 = 4 ∨ p2 = 4 then (year0 + 1, 365) else (year0, r4)
      if yd.2 = 0 ∧ rem = 0 then
        (yd.1 + 1, ⟨if isleap (yd.1 + 1) then 4 else 6, 1, 1⟩)
      else
        let base : CDate := ⟨if isleap (yd.1 + 1) then 5 else 7, 1, 1⟩
        (yd.1, fromOrdNat (toOrd base - 1 - yd.2).toNat)
  let hour := rem / 3600000000
  let minute := (rem % 3600000000) / 60000000
  if adjust_timezone ∧ (hour ≠ 0 ∨ minute ≠ 0) then
    if hour < 14 ∨ (hour = 14 ∧ minute = 0) then
      mkDate ver11 yc.1 yc.2.m yc.2.d (some (-(hour * 60 + minute)))
    else
      let c2 := succDay yc.2
      mkDate ver11 yc.1 c2.m c2.d (some ((24 - hour) * 60 - minute))
  else
    mkDate ver11 yc.1 yc.2.m yc.2.d none

/-- OrderedDateTime._date_operator(operator.add, other) for a Date value
and a DayTimeDuration `sec` (its decimal seconds): delta arithmetic through
todelta/fromdelta, re-attaching UTC when the operand was aware. -/
def dateAddDTD (ver11 : Bool) (x : XDT) (sec : ℚ) : Option XDT :=
  let delta := todeltaMicro x + tdOfSeconds sec
  if x.tz = none then fromdeltaDate ver11 false delta
  else
    match fromdeltaDate ver11 false delta with
    | none => none
    | some v => some (if v.tz = none then { v with tz := some 0 } else v)

/-- OrderedDateTime._date_operator(operator.sub, other); same as addition
with the timedelta negated. -/
def dateSubDTD (ver11 : Bool) (x : XDT) (sec : ℚ) : Option XDT :=
  let delta := todeltaMicro x - tdOfSeconds sec
  if x.tz = none then fromdeltaDate ver11 false delta
  else
    match fromdeltaDate ver11 false delta with
    | none => none
    | some v => some (if v.tz = none then { v with tz := some 0 } else v)

/-- The three Python classes of the duration hierarchy. -/
inductive DurKind
  | general
  | yearMonth
  | dayTime
deriving DecidableEq

/-- `isinstance(other, self.__class__)` for duration operands: the base
class accepts every duration, each subclass only its own instances. -/
def durIsInstance (selfKind otherKind : DurKind) : Bool :=
  selfKind == DurKind.general || otherKind == selfKind

/-- One anchor value of Duration._compare_durations:
`timedelta(months2days(ay, am, months), int(seconds), int((seconds - int(seconds)) * 10**6))`
in total microseconds. -/
def durAnchorMicro (months : Int) (seconds : ℚ) (ay am : Int) : Int :=
  (months2days ay am months * 86400 + pyTrunc seconds) * 1000000 +
    pyTrunc ((seconds - (pyTrunc seconds : ℚ)) * 1000000)

/-- Duration._compare_durations: the relation must hold at all four W3C
anchor dates; `none` models the `TypeError` raised when the operand is not
an instance of the receiver's class. -/
def compareDurationsB (k1 : DurKind) (m1 : Int) (s1 : ℚ) (k2 : DurKind) (m2 : Int)
    (s2 : ℚ) (op : Int → Int → Bool) : Option Bool :=
  if durIsInstance k1 k2 then
    some (op (durAnchorMicro m1 s1 1696 9) (durAnchorMicro m2 s2 1696 9) &&
      op (durAnchorMicro m1 s1 1697 2) (durAnchorMicro m2 s2 1697 2) &&
      op (durAnchorMicro m1 s1 1903 3) (durAnchorMicro m2 s2 1903 3) &&
      op (durAnchorMicro m1 s1 1903 7) (durAnchorMicro m2 s2 1903 7))
  else none

/-- Duration.__lt__. -/
def durLt (k1 : DurKind) (m1 : Int) (s1 : ℚ) (k2 : DurKind) (m2 : Int) (s2 : ℚ) :
    Option Bool :=
  compareDurationsB k1 m1 s1 k2 m2 s2 (fun u v => decide (u < v))

/-- Duration.__gt__. -/
def durGt (k1 : DurKind) (m1 : Int) (s1 : ℚ) (k2 : DurKind) (m2 : Int) (s2 : ℚ) :
    Option Bool :=
  compareDurationsB k1 m1 s1 k2 m2 s2 (fun u v => decide (v < u))

/-- The spec invariant on a duration value: `months` and `seconds` never
have strictly opposite signs. -/
def invDuration (months : Int) (seconds : ℚ) : Prop :=
  (months ≤ 0 ∧ seconds ≤ 0) ∨ (0 ≤ months ∧ 0 ≤ seconds)

/-- Duration.__init__: `raise ValueError` when the signs strictly differ. -/
def mkDuration (months : Int) (seconds : ℚ) : Option (Int × ℚ) :=
  if (seconds < 0 ∧ 0 < months) ∨ (months < 0 ∧ 0 < seconds) then none
  else some (months, seconds)

/-- The normalization arithmetic of Duration.fromstring after the regex
match.  The captured groups are nonnegative integers (absent groups are 0)
plus the decimal seconds fragment; `sign` is a captured leading minus. -/
def durationFromAtoms (sign : Bool) (years months days hours minutes : Int)
    (sec : ℚ) : Int × ℚ :=
  let minutes1 : Int := minutes + pyTrunc (sec / 60)
  let seconds1 : ℚ := sec - 60 * ((pyTrunc (sec / 60) : Int) : ℚ)
  let hours1 : Int := hours + minutes1 / 60
  let minutes2 : Int := minutes1 % 60
  let days1 : Int := days + hours1 / 24
  let hours2 : Int := hours1 % 24
  let monthsT : Int := months + 12 * years
  if sign then
    (-monthsT, -seconds1 - (((days1 * 24 + hours2) * 3600 + minutes2 * 60 : Int) : ℚ))
  else
    (monthsT, seconds1 + (((days1 * 24 + hours2) * 3600 + minutes2 * 60 : Int) : ℚ))

/-- Duration.fromstring tail: the variant-specific zero-field checks and
the constructor call. -/
def durationParse (kind : DurKind) (sign : Bool) (years months days hours minutes : Int)
    (sec : ℚ) : Option (Int × ℚ) :=
  let p := durationFromAtoms sign years months days hours minutes sec
  match kind with
  | DurKind.dayTime => if p.1 ≠ 0 then none else mkDuration 0 p.2
  | DurKind.yearMonth => if p.2 ≠ 0 then none else mkDuration p.1 0
  | DurKind.general => mkDuration p.1 p.2

/-- YearMonthDuration.__add__ on two year-month durations. -/
def ymdAdd (m1 m2 : Int) : Option (Int × ℚ) :=
  mkDuration (m1 + m2) 0

/-- YearMonthDuration.__sub__. -/
def ymdSub (m1 m2 : Int) : Option (Int × ℚ) :=
  mkDuration (m1 - m2) 0

/-- YearMonthDuration.__mul__ by a number: `int(float(months * other) + 0.5)`. -/
def ymdMul (m : Int) (f : ℚ) : Option (Int × ℚ) :=
  mkDuration (pyTrunc ((m : ℚ) * f + 1 / 2)) 0

/-- YearMonthDuration.__truediv__ by a number; `none` is the
ZeroDivisionError. -/
def ymdDivNum (m : Int) (f : ℚ) : Option (Int × ℚ) :=
  if f = 0 then none else mkDuration (pyTrunc ((m : ℚ) / f + 1 / 2)) 0

/-- DayTimeDuration.__add__. -/
def dtdAdd (s1 s2 : ℚ) : Option (Int × ℚ) :=
  mkDuration 0 (s1 + s2)

/-- DayTimeDuration.__sub__. -/
def dtdSub (s1 s2 : ℚ) : Option (Int × ℚ) :=
  mkDuration 0 (s1 - s2)

/-- DayTimeDuration.__mul__ by a number: the seconds are scaled and then
rounded to an integer by `int(float(seconds * other) + 0.5)` (the float
conversion is modelled as exact). -/
def dtdMul (s f : ℚ) : Option (Int × ℚ) :=
  mkDuration 0 ((pyTrunc (s * f + 1 / 2) : Int) : ℚ)

/-- DayTimeDuration.__truediv__ by a number. -/
def dtdDivNum (s f : ℚ) : Option (Int × ℚ) :=
  if f = 0 then none else mkDuration 0 ((pyTrunc (s / f + 1 / 2) : Int) : ℚ)

/-- Zero-padding on the left, for fractional-second digits. -/
def padZeros (s : String) (k : Nat) : String :=
  String.mk (List.replicate (k - s.length) '0') ++ s

/-- The number of decimal digits needed for an exact finite decimal
rendering of `q` (Decimal values always have one). -/
def decimalScale (q : ℚ) : Nat :=
  ((List.range 60).find? fun k => (q * (10 : ℚ) ^ k).den = 1).getD 0

/-- Rendering of a nonnegative Decimal with trailing zeros stripped, as
`str(x.normalize())` produces for the sub-minute second values used by
Duration.__str__ (the scientific-notation form for multiples of ten is not
reproduced; the theorems below never evaluate it). -/
def decimalStr (q : ℚ) : String :=
  let k := decimalScale q
  let n := (q * (10 : ℚ) ^ k).num
  if k = 0 then toString n
  else toString (n / (10 ^ k : Int)) ++ "." ++ padZeros (toString (n % (10 ^ k : Int))) k

/-- `value[-1] == 'P'`. -/
def strLastIsP (v : String) : Bool :=
  v.data.getLast? == some 'P'

/-- Duration.__str__ from datatypes.py: sign, years/months/days part,
then the `T` time part, with `T0S` appended when everything is zero. -/
def durationToString (months : Int) (seconds : ℚ) : String :=
  let m : Int := |months|
  let years := m / 12
  let mos := m % 12
  let s : ℚ := |seconds|
  let days : Int := pyTrunc (s / 86400)
  let hours : Int := pyTrunc (s / 3600) % 24
  let minutes : Int := pyTrunc (s / 60) % 60
  let secs : ℚ := s - 60 * ((pyTrunc (s / 60) : Int) : ℚ)
  let v0 : String := if months < 0 ∨ seconds < 0 then "-P" else "P"
  let v1 : String :=
    if years ≠ 0 ∨ mos ≠ 0 ∨ days ≠ 0 then
      v0 ++ (if years ≠ 0 then toString years ++ "Y" else "")
        ++ (if mos ≠ 0 then toString mos ++ "M" else "")
        ++ (if days ≠ 0 then toString days ++ "D" else "")
    else v0
  if hours ≠ 0 ∨ minutes ≠ 0 ∨ secs ≠ 0 then
    v1 ++ "T" ++ (if hours ≠ 0 then toString hours ++ "H" else "")
      ++ (if minutes ≠ 0 then toString minutes ++ "M" else "")
      ++ (if secs ≠ 0 then decimalStr secs ++ "S" else "")
  else if strLastIsP v1 then v1 ++ "T0S"
  else v1

/-- DayTimeDuration has no own __str__: it inherits Duration.__str__ with
months = 0. -/
def dayTimeDurationToString (seconds : ℚ) : String :=
  durationToString 0 seconds

/-- YearMonthDuration.__str__ from datatypes.py (overrides the base
formatter; a zero value renders as "P0M"). -/
def yearMonthDurationToString (months : Int) : String :=
  let m : Int := |months|
  let years := m / 12
  let mos := m % 12
  if years = 0 then
    if months < 0 then "-P" ++ toString mos ++ "M" else "P" ++ toString mos ++ "M"
  else if mos = 0 then
    if months < 0 then "-P" ++ toString years ++ "Y" else "P" ++ toString years ++ "Y"
  else if months < 0 then "-P" ++ toString years ++ "Y" ++ toString mos ++ "M"
  else "P" ++ toString years ++ "Y" ++ toString mos ++ "M"

/-- Python str.strip on a character list. -/
def stripChars (l : List Char) : List Char :=
  ((l.dropWhile Char.isWhitespace).reverse.dropWhile Char.isWhitespace).reverse

/-- str.split(new-group at every separator occurrence), Python semantics:
the empty string gives one empty field. -/
def splitOnChar (sep : Char) : List Char → List (List Char)
  | [] => [[]]
  | c :: rest =>
    let r := splitOnChar sep rest
    if c = sep then [] :: r
    else (c :: r.headD []) :: r.tail

/-- Value of a nonempty ASCII digit string. -/
def digitsValAux (acc : Int) : List Char → Int
  | [] => acc
  | c :: rest => digitsValAux (acc * 10 + ((c.toNat : Int) - 48)) rest

/-- int(str): strips surrounding whitespace, one optional sign, then
decimal digits; a ValueError is `none`. -/
def pyIntChars (l : List Char) : Option Int :=
  match stripChars l with
  | [] => none
  | c :: rest =>
    if c = '+' then
      if rest ≠ [] ∧ rest.all Char.isDigit then some (digitsValAux 0 rest) else none
    else if c = '-' then
      if rest ≠ [] ∧ rest.all Char.isDigit then some (-(digitsValAux 0 rest)) else none
    else if (c :: rest).all Char.isDigit then some (digitsValAux 0 (c :: rest))
    else none

/-- Timezone.fromstring (datatypes.py): `text.strip().split(':')` must
give exactly two int-parsable fields; the minutes are negated when the
hours field starts with a minus; Timezone.__init__ range-checks the total
against ±14:00; on any ValueError the literal "Z" is still accepted.
The result is the offset in minutes. -/
def timezoneFromstring (text : String) : Option Int :=
  let t := stripChars text.data
  let parsed : Option Int :=
    match splitOnChar ':' t with
    | [hs, ms] =>
      match pyIntChars hs, pyIntChars ms with
      | some h, some m =>
        let off := if hs.headD ' ' = '-' then h * 60 - m else h * 60 + m
        if -840 ≤ off ∧ off ≤ 840 then some off else none
      | _, _ => none
    | _ => none
  match parsed with
  | some off => some off
  | none => if t = ['Z'] then some 0 else none

/-- float(str) for plain decimal literals, kept exact as a pair
(mantissa, fraction-digit count): the value is mantissa / 10^scale.
Sign, digits, and an optional decimal point are covered (exponent forms
and inf/nan are not exercised by the theorems below). -/
def floatParse (l : List Char) : Option (Int × Nat) :=
  let t := stripChars l
  let sc : Int × List Char :=
    match t with
    | '+' :: rest => (1, rest)
    | '-' :: rest => (-1, rest)
    | l2 => (1, l2)
  match splitOnChar '.' sc.2 with
  | [a] =>
    if a ≠ [] ∧ a.all Char.isDigit then some (sc.1 * digitsValAux 0 a, 0) else none
  | [a, b] =>
    if (a ++ b) ≠ [] ∧ (a ++ b).all Char.isDigit then
      some (sc.1 * digitsValAux 0 (a ++ b), b.length)
    else none
  | _ => none

/-- The exact rational value of a parsed float literal. -/
def ratOfParts (p : Int × Nat) : ℚ :=
  (p.1 : ℚ) / 10 ^ p.2

/-- UntypedAtomic._get_operands for an untyped peer with force_float=True:
both raw string payloads are converted to floats. -/
def untypedOperandsFloat (a b : String) : Option (ℚ × ℚ) :=
  match floatParse a.data, floatParse b.data with
  | some x, some y => some (ratOfParts x, ratOfParts y)
  | _, _ => none

/-- UntypedAtomic.__add__ on two untyped values: operator.add on the
float operand pair. -/
def untypedAdd (a b : String) : Option ℚ :=
  (untypedOperandsFloat a b).map fun p => p.1 + p.2

/-- UntypedAtomic.__lt__ on two untyped values. -/
def untypedLt (a b : String) : Option Bool :=
  (untypedOperandsFloat a b).map fun p => decide (p.1 < p.2)

/-- UntypedAtomic.__le__ on two untyped values. -/
def untypedLe (a b : String) : Option Bool :=
  (untypedOperandsFloat a b).map fun p => decide (p.1 ≤ p.2)

/-- UntypedAtomic.__eq__ on two untyped values: _get_operands with
force_float=False keeps the raw strings, and operator.eq compares them. -/
def untypedEqB (a b : String) : Bool :=
  a == b

/-- cast_to_integer from xpath2_constructors.py for an integer input:
`int(value)` followed by the optional bound checks; an xpath_error is
`none`. -/
def cast_to_integer (value : Int) (lower_bound higher_bound : Option Int) : Option Int :=
  if (match lower_bound with | some lb => decide (value < lb) | none => false) then none
  else if (match higher_bound with | some hb => decide (hb ≤ value) | none => false) then none
  else some value

/-- The xs:long constructor: cast_to_integer(value, -2**127, 2**127). -/
def longConstructorCast (v : Int) : Option Int :=
  cast_to_integer v (some (-(2 ^ 127))) (some (2 ^ 127))

/-- The xs:int constructor: cast_to_integer(value, -2**63, 2**63). -/
def intConstructorCast (v : Int) : Option Int :=
  cast_to_integer v (some (-(2 ^ 63))) (some (2 ^ 63))

/-- The XSD_BUILTIN_TYPES registry validator for 'long' on integers. -/
def longValidator (x : Int) : Bool :=
  decide (-(2 ^ 63) ≤ x ∧ x < 2 ^ 63)

/-- The XSD_BUILTIN_TYPES registry validator for 'int' on integers. -/
def intValidator (x : Int) : Bool :=
  decide (-(2 ^ 31) ≤ x ∧ x < 2 ^ 31)

theorem isleap_iff (y : Int) :
    isleap y = true ↔ y % 4 = 0 ∧ (y % 100 ≠ 0 ∨ y % 400 = 0) := by
  simp [isleap, Bool.and_eq_true, Bool.or_eq_true]

theorem dfce_step (y : Int) (hy : 1 ≤ y) :
    days_from_common_era y =
      days_from_common_era (y - 1) + (if isleap y then 366 else 365) := by
  rcases eq_or_lt_of_le hy with h1 | h1
  · rw [← h1]; decide
  · have h0 : 0 < y := by omega
    have h0' : 0 < y - 1 := by omega
    have hiff := isleap_iff y
    simp only [days_from_common_era, if_pos h0, if_pos h0']
    by_cases hl : y % 4 = 0 ∧ (y % 100 ≠ 0 ∨ y % 400 = 0)
    · rw [if_pos (hiff.mpr hl)]
      omega
    · rw [if_neg (fun hc => hl (hiff.mp hc))]
      omega

theorem monthLen_bounds (lp : Bool) (m : Int) (h1 : 1 ≤ m) (h2 : m ≤ 12) :
    1 ≤ monthLen lp m ∧ monthLen lp m ≤ 31 := by
  interval_cases m <;> cases lp <;> decide

theorem monthLen_12 (lp : Bool) : monthLen lp 12 = 31 := by
  cases lp <;> decide

theorem monthLen_1 (lp : Bool) : monthLen lp 1 = 31 := by
  cases lp <;> decide

theorem dbm_one (lp : Bool) : daysBeforeMonth lp 1 = 0 := by
  cases lp <;> decide

theorem dbm_succ (lp : Bool) (m : Int) (h1 : 1 ≤ m) (h2 : m ≤ 12) :
    daysBeforeMonth lp (m + 1) = daysBeforeMonth lp m + monthLen lp m := by
  interval_cases m <;> cases lp <;> decide

theorem dbm_nonneg (lp : Bool) (m : Int) (h1 : 1 ≤ m) (h2 : m ≤ 13) :
    0 ≤ daysBeforeMonth lp m := by
  interval_cases m <;> cases lp <;> decide

theorem dbm_pos (lp : Bool) (m : Int) (h1 : 2 ≤ m) (h2 : m ≤ 12) :
    1 ≤ daysBeforeMonth lp m := by
  interval_cases m <;> cases lp <;> decide

theorem dbm_add_len_le (lp : Bool) (m : Int) (h1 : 1 ≤ m) (h2 : m ≤ 12) :
    daysBeforeMonth lp m + monthLen lp m ≤ daysBeforeMonth lp 13 := by
  interval_cases m <;> cases lp <;> decide

theorem dbm_13 (lp : Bool) : daysBeforeMonth lp 13 = if lp then 366 else 365 := by
  cases lp <;> decide

theorem dbm12_plus31 (lp : Bool) :
    daysBeforeMonth lp 12 + 31 = if lp then 366 else 365 := by
  cases lp <;> decide

theorem toOrd_succDay (c : CDate) (h : validC c) : toOrd (succDay c) = toOrd c + 1 := by
  obtain ⟨y, m, d⟩ := c
  simp only [validC] at h
  obtain ⟨hy, hm1, hm2, hd1, hd2⟩ := h
  simp only [succDay]
  split_ifs with h1 h2
  · simp only [toOrd]
    omega
  · have hs := dbm_succ (isleap y) m hm1 hm2
    simp only [toOrd]
    omega
  · have hm : m = 12 := by omega
    subst hm
    have h31 := monthLen_12 (isleap y)
    have hd : d = 31 := by omega
    subst hd
    have hstep := dfce_step y hy
    have h12 := dbm12_plus31 (isleap y)
    have hcomb : days_from_common_era y =
        days_from_common_era (y - 1) + (daysBeforeMonth (isleap y) 12 + 31) := by
      rw [hstep, h12]
    simp only [toOrd, add_sub_cancel_right]
    have hone := dbm_one (isleap (y + 1))
    omega

theorem validC_succDay (c : CDate) (h : validC c) : validC (succDay c) := by
  obtain ⟨y, m, d⟩ := c
  simp only [validC] at h
  obtain ⟨hy, hm1, hm2, hd1, hd2⟩ := h
  simp only [succDay]
  split_ifs with h1 h2 <;> simp only [validC]
  · exact ⟨hy, hm1, hm2, by omega, by omega⟩
  · have := monthLen_bounds (isleap y) (m + 1) (by omega) (by omega)
    exact ⟨hy, by omega, by omega, by omega, by omega⟩
  · have := monthLen_1 (isleap (y + 1))
    exact ⟨by omega, by omega, by omega, by omega, by omega⟩

theorem fromOrd_spec (n : Nat) :
    validC (fromOrdNat n) ∧ toOrd (fromOrdNat n) = (n : Int) + 1 := by
  induction n with
  | zero => exact ⟨by decide, by decide⟩
  | succ k ih =>
    refine ⟨validC_succDay _ ih.1, ?_⟩
    rw [show fromOrdNat (k + 1) = succDay (fromOrdNat k) from rfl,
      toOrd_succDay _ ih.1, ih.2]
    push_cast
    ring

theorem dfce_nonneg (y : Int) (h : 0 ≤ y) : 0 ≤ days_from_common_era y := by
  unfold days_from_common_era
  split_ifs <;> omega

theorem dfce_pos (n : Int) (h : 1 ≤ n) : 365 ≤ days_from_common_era n := by
  unfold days_from_common_era
  rw [if_pos (by omega : (0 : Int) < n)]
  omega

theorem dfce_mono (a b : Int) (ha : 0 ≤ a) (hab : a ≤ b) :
    days_from_common_era a ≤ days_from_common_era b := by
  unfold days_from_common_era
  split_ifs <;> omega

theorem dfce_9999 : days_from_common_era 9999 = 3652059 := by decide

theorem toOrd_pos (c : CDate) (h : validC c) : 1 ≤ toOrd c := by
  obtain ⟨hy, hm1, hm2, hd1, hd2⟩ := h
  have h1 := dfce_nonneg (c.y - 1) (by omega)
  have h2 := dbm_nonneg (isleap c.y) c.m hm1 (by omega)
  simp only [toOrd]
  omega

theorem toOrd_le_dfce (c : CDate) (h : validC c) :
    toOrd c ≤ days_from_common_era c.y := by
  obtain ⟨hy, hm1, hm2, hd1, hd2⟩ := h
  have h1 := dbm_add_len_le (isleap c.y) c.m hm1 hm2
  have h2 := dbm_13 (isleap c.y)
  have h3 := dfce_step c.y hy
  rw [h2] at h1
  simp only [toOrd]
  split_ifs at h1 h3 <;> omega

theorem toOrd_le_max (c : CDate) (h : validC c) (h9 : c.y ≤ 9999) :
    toOrd c ≤ 3652059 := by
  have h1 := toOrd_le_dfce c h
  have h2 := dfce_mono c.y 9999 (by have := h.1; omega) h9
  have h3 := dfce_9999
  omega

theorem toOrd_big (c : CDate) (h : validC c) (h10 : 10000 ≤ c.y) :
    3652060 ≤ toOrd c := by
  obtain ⟨hy, hm1, hm2, hd1, hd2⟩ := h
  have h1 := dfce_mono 9999 (c.y - 1) (by omega) (by omega)
  have h2 := dbm_nonneg (isleap c.y) c.m hm1 (by omega)
  have h3 := dfce_9999
  simp only [toOrd]
  omega

theorem succDay_predDay (c : CDate) (h : validC c) : succDay (predDay c) = c := by
  obtain ⟨y, m, d⟩ := c
  simp only [validC] at h
  obtain ⟨hy, hm1, hm2, hd1, hd2⟩ := h
  simp only [predDay]
  split_ifs with h1 h2
  · simp only [succDay]
    rw [if_pos (by omega : d - 1 < monthLen (isleap y) m),
      show d - 1 + 1 = d by omega]
  · have hd : d = 1 := by omega
    subst hd
    simp only [succDay]
    rw [if_neg (by omega : ¬ monthLen (isleap y) (m - 1) < monthLen (isleap y) (m - 1)),
      if_pos (by omega : m - 1 < 12), show m - 1 + 1 = m by omega]
  · have hd : d = 1 := by omega
    have hm : m = 1 := by omega
    subst hd hm
    simp only [succDay]
    have h31 := monthLen_12 (isleap (y - 1))
    rw [if_neg (by omega : ¬ (31 : Int) < monthLen (isleap (y - 1)) 12),
      if_neg (by omega : ¬ (12 : Int) < 12), show y - 1 + 1 = y by omega]

theorem toOrd_one_eq (c : CDate) (h : validC c) (h1 : toOrd c = 1) :
    c = ⟨1, 1, 1⟩ := by
  obtain ⟨y, m, d⟩ := c
  simp only [validC] at h
  obtain ⟨hy, hm1, hm2, hd1, hd2⟩ := h
  simp only [toOrd] at h1
  have hdf := dfce_nonneg (y - 1) (by omega)
  have hdb := dbm_nonneg (isleap y) m hm1 (by omega)
  have hy1 : y = 1 := by
    by_contra hy'
    have := dfce_pos (y - 1) (by omega)
    omega
  have hmm : m = 1 := by
    by_contra hm'
    have := dbm_pos (isleap y) m (by omega) hm2
    omega
  simp only [CDate.mk.injEq]
  omega

theorem toOrd_predDay (c : CDate) (h : validC c) (h2 : 2 ≤ toOrd c) :
    toOrd (predDay c) = toOrd c - 1 := by
  obtain ⟨y, m, d⟩ := c
  simp only [validC] at h
  obtain ⟨hy, hm1, hm2, hd1, hd2⟩ := h
  simp only [predDay]
  split_ifs with hc1 hc2
  · simp only [toOrd]
    omega
  · have hs := dbm_succ (isleap y) (m - 1) (by omega) (by omega)
    have he : m - 1 + 1 = m := by ring
    rw [he] at hs
    simp only [toOrd]
    omega
  · have hd : d = 1 := by omega
    have hm : m = 1 := by omega
    subst hd
    subst hm
    have hone := dbm_one (isleap y)
    have hy2 : 2 ≤ y := by
      by_contra hy'
      have hy1 : y = 1 := by omega
      subst hy1
      simp only [toOrd] at h2
      have hz : days_from_common_era (1 - 1) = 0 := by decide
      omega
    have hstep := dfce_step (y - 1) (by omega)
    have h12 := dbm12_plus31 (isleap (y - 1))
    have hcomb : days_from_common_era (y - 1) =
        days_from_common_era (y - 1 - 1) + (daysBeforeMonth (isleap (y - 1)) 12 + 31) := by
      rw [hstep, h12]
    simp only [toOrd]
    omega

theorem validC_predDay (c : CDate) (h : validC c) (h2 : 2 ≤ toOrd c) :
    validC (predDay c) := by
  obtain ⟨y, m, d⟩ := c
  simp only [validC] at h
  obtain ⟨hy, hm1, hm2, hd1, hd2⟩ := h
  simp only [predDay]
  split_ifs with hc1 hc2 <;> simp only [validC]
  · exact ⟨hy, hm1, hm2, by omega, by omega⟩
  · have := monthLen_bounds (isleap y) (m - 1) (by omega) (by omega)
    exact ⟨hy, by omega, by omega, by omega, le_refl _⟩
  · have hd : d = 1 := by omega
    have hm : m = 1 := by omega
    have hy2 : 2 ≤ y := by
      by_contra hy'
      have hy1 : y = 1 := by omega
      subst hy1 hd hm
      simp only [toOrd] at h2
      have hz : days_from_common_era (1 - 1) = 0 := by decide
      have hone := dbm_one (isleap 1)
      omega
    have h31 := monthLen_12 (isleap (y - 1))
    exact ⟨by omega, by omega, by omega, by omega, by omega⟩

theorem fromOrd_inv_aux :
    ∀ n : Nat, ∀ c : CDate, validC c → toOrd c = (n : Int) + 1 → fromOrdNat n = c := by
  intro n
  induction n using Nat.strong_induction_on with
  | _ n ih =>
    intro c hc hord
    by_cases hone : toOrd c = 1
    · have hn0 : n = 0 := by omega
      subst hn0
      rw [toOrd_one_eq c hc hone]
      rfl
    · have hp := toOrd_pos c hc
      have h2' : 2 ≤ toOrd c := by omega
      have hn1 : 1 ≤ n := by omega
      obtain ⟨k, rfl⟩ : ∃ k, n = k + 1 := ⟨n - 1, by omega⟩
      have hv := validC_predDay c hc h2'
      have ht := toOrd_predDay c hc h2'
      have ihp := ih k (by omega) (predDay c) hv (by push_cast at hord ⊢; omega)
      show succDay (fromOrdNat k) = c
      rw [ihp]
      exact succDay_predDay c hc

theorem fromOrd_toOrd (c : CDate) (h : validC c) :
    fromOrdNat (toOrd c - 1).toNat = c := by
  have h1 := toOrd_pos c h
  exact fromOrd_inv_aux (toOrd c - 1).toNat c h (by omega)

theorem pyTrunc_intCast (n : Int) : pyTrunc ((n : ℚ)) = n := by
  unfold pyTrunc
  split_ifs with h
  · exact_mod_cast Int.floor_intCast n
  · have h2 : (-(n : ℚ)) = ((-n : Int) : ℚ) := by push_cast; ring
    rw [h2, Int.floor_intCast]
    ring

theorem tdOfSeconds_intCast (n : Int) : tdOfSeconds ((n : ℚ)) = n * 1000000 := by
  unfold tdOfSeconds
  rw [pyTrunc_intCast]
  have h2 : ((n : ℚ) - (n : ℚ)) * 1000000 = ((0 : Int) : ℚ) := by push_cast; ring
  rw [h2, pyTrunc_intCast]
  ring

theorem todelta_naive_zero (y mo d : Int) :
    todeltaMicro ⟨y, mo, d, 0, 0, 0, 0, none, none⟩ =
      (toOrd ⟨y, mo, d⟩ - 1) * 86400000000 := by
  simp only [todeltaMicro, Option.getD_none]
  ring

theorem mkDate_inrange (ver : Bool) (c : CDate) (h : validC c) (h9 : c.y ≤ 9999) :
    mkDate ver c.y c.m c.d none = some ⟨c.y, c.m, c.d, 0, 0, 0, 0, none, none⟩ := by
  obtain ⟨y, m, d⟩ := c
  simp only [validC] at h
  obtain ⟨hy, hm1, hm2, hd1, hd2⟩ := h
  simp only [mkDate, mkAbstractDT, ite_self]
  rw [if_pos (show (1 : Int) ≤ y ∧ y ≤ 9999 from ⟨hy, h9⟩)]
  rw [if_pos (show validDtFields y m d 0 0 0 0 from
    ⟨hm1, hm2, hd1, hd2, by omega, by omega, by omega, by omega,
      by omega, by omega, by omega, by omega⟩)]
  norm_num

theorem fromdelta_wholeday (ver : Bool) (n : Int) (h0 : 0 ≤ n) (h1 : n ≤ 3652058) :
    fromdeltaDate ver false (n * 86400000000) =
      mkDate ver (fromOrdNat n.toNat).y (fromOrdNat n.toNat).m
        (fromOrdNat n.toNat).d none := by
  have hdays : n * 86400000000 / 86400000000 = n :=
    Int.mul_ediv_cancel n (by norm_num)
  have hrem : n * 86400000000 % 86400000000 = 0 := Int.mul_emod_left n 86400000000
  simp only [fromdeltaDate, hdays, hrem]
  simp only [eq_true (show 0 ≤ n ∧ n ≤ 3652058 from ⟨h0, h1⟩), if_true]
  norm_num

theorem dateAddDTD_naive_sec (ver : Bool) (y mo d s : Int) :
    dateAddDTD ver ⟨y, mo, d, 0, 0, 0, 0, none, none⟩ ((s : Int) : ℚ) =
      fromdeltaDate ver false ((toOrd ⟨y, mo, d⟩ - 1) * 86400000000 + s * 1000000) := by
  simp only [dateAddDTD, todelta_naive_zero, tdOfSeconds_intCast, if_pos]

theorem dateSubDTD_naive_sec (ver : Bool) (y mo d s : Int) :
    dateSubDTD ver ⟨y, mo, d, 0, 0, 0, 0, none, none⟩ ((s : Int) : ℚ) =
      fromdeltaDate ver false ((toOrd ⟨y, mo, d⟩ - 1) * 86400000000 - s * 1000000) := by
  simp only [dateSubDTD, todelta_naive_zero, tdOfSeconds_intCast, if_pos]

theorem dateAddDTD_naive (ver : Bool) (y mo d k : Int) :
    dateAddDTD ver ⟨y, mo, d, 0, 0, 0, 0, none, none⟩ ((86400 * k : Int) : ℚ) =
      fromdeltaDate ver false ((toOrd ⟨y, mo, d⟩ - 1 + k) * 86400000000) := by
  simp only [dateAddDTD, todelta_naive_zero, tdOfSeconds_intCast, if_pos]
  congr 1
  ring

theorem dateSubDTD_naive (ver : Bool) (y mo d k : Int) :
    dateSubDTD ver ⟨y, mo, d, 0, 0, 0, 0, none, none⟩ ((86400 * k : Int) : ℚ) =
      fromdeltaDate ver false ((toOrd ⟨y, mo, d⟩ - 1 - k) * 86400000000) := by
  simp only [dateSubDTD, todelta_naive_zero, tdOfSeconds_intCast, if_pos]
  congr 1
  ring

/-- Claim C1 (amended): for a naive date with an in-range year and a day-time
duration that is a whole number `k` of days, with the shifted day offset
still inside the supported datetime range, `(d + delta) - delta` returns
exactly `d`. -/
theorem c1_theorem (ver : Bool) (y mo d k : Int)
    (hv : validC ⟨y, mo, d⟩) (h9 : y ≤ 9999)
    (hlo : 0 ≤ toOrd ⟨y, mo, d⟩ - 1 + k)
    (hhi : toOrd ⟨y, mo, d⟩ - 1 + k ≤ 3652058) :
    (dateAddDTD ver ⟨y, mo, d, 0, 0, 0, 0, none, none⟩ ((86400 * k : Int) : ℚ)).bind
        (fun a => dateSubDTD ver a ((86400 * k : Int) : ℚ)) =
      some ⟨y, mo, d, 0, 0, 0, 0, none, none⟩ := by
  have hpos := toOrd_pos _ hv
  have hA := dateAddDTD_naive ver y mo d k
  have hFW := fromdelta_wholeday ver (toOrd ⟨y, mo, d⟩ - 1 + k) hlo hhi
  have hspec := fromOrd_spec (toOrd ⟨y, mo, d⟩ - 1 + k).toNat
  have hcast : (((toOrd ⟨y, mo, d⟩ - 1 + k).toNat : Int)) = toOrd ⟨y, mo, d⟩ - 1 + k :=
    Int.toNat_of_nonneg hlo
  have hvc2 : validC (fromOrdNat (toOrd ⟨y, mo, d⟩ - 1 + k).toNat) := hspec.1
  have hto2 : toOrd (fromOrdNat (toOrd ⟨y, mo, d⟩ - 1 + k).toNat) =
      toOrd ⟨y, mo, d⟩ + k := by
    rw [hspec.2, hcast]
    ring
  have h92 : (fromOrdNat (toOrd ⟨y, mo, d⟩ - 1 + k).toNat).y ≤ 9999 := by
    by_contra hbig
    have := toOrd_big _ hvc2 (by omega)
    omega
  have hmk := mkDate_inrange ver (fromOrdNat (toOrd ⟨y, mo, d⟩ - 1 + k).toNat) hvc2 h92
  rw [hA, hFW, hmk]
  simp only [Option.bind]
  have hB := dateSubDTD_naive ver (fromOrdNat (toOrd ⟨y, mo, d⟩ - 1 + k).toNat).y
    (fromOrdNat (toOrd ⟨y, mo, d⟩ - 1 + k).toNat).m
    (fromOrdNat (toOrd ⟨y, mo, d⟩ - 1 + k).toNat).d k
  rw [hB]
  have heta : (⟨(fromOrdNat (toOrd ⟨y, mo, d⟩ - 1 + k).toNat).y,
      (fromOrdNat (toOrd ⟨y, mo, d⟩ - 1 + k).toNat).m,
      (fromOrdNat (toOrd ⟨y, mo, d⟩ - 1 + k).toNat).d⟩ : CDate) =
      fromOrdNat (toOrd ⟨y, mo, d⟩ - 1 + k).toNat := rfl
  rw [heta, hto2]
  have he2 : toOrd ⟨y, mo, d⟩ + k - 1 - k = toOrd ⟨y, mo, d⟩ - 1 := by ring
  rw [he2]
  have ht0 : 0 ≤ toOrd ⟨y, mo, d⟩ - 1 := by omega
  have ht1 : toOrd ⟨y, mo, d⟩ - 1 ≤ 3652058 := by
    have := toOrd_le_max ⟨y, mo, d⟩ hv h9
    omega
  rw [fromdelta_wholeday ver _ ht0 ht1, fromOrd_toOrd ⟨y, mo, d⟩ hv]
  exact mkDate_inrange ver ⟨y, mo, d⟩ hv h9

theorem c1_witness :
    (dateAddDTD false ⟨1, 1, 2, 0, 0, 0, 0, none, none⟩ ((86400 * 1 : Int) : ℚ)).bind
        (fun a => dateSubDTD false a ((86400 * 1 : Int) : ℚ)) =
      some ⟨1, 1, 2, 0, 0, 0, 0, none, none⟩ :=
  c1_theorem false 1 1 2 1 (by decide) (by decide) (by decide) (by decide)

/-- Claim C1 as stated is false: adding one hour to the naive date
0001-01-02 keeps the date (the time of day is dropped), and subtracting the
hour back then lands on 0001-01-01, which is a different date value. -/
theorem c1_counterexample :
    (dateAddDTD false ⟨1, 1, 2, 0, 0, 0, 0, none, none⟩ ((3600 : Int) : ℚ)).bind
        (fun a => dateSubDTD false a ((3600 : Int) : ℚ)) =
      some ⟨1, 1, 1, 0, 0, 0, 0, none, none⟩ ∧
    xdtEqB ⟨1, 1, 1, 0, 0, 0, 0, none, none⟩ ⟨1, 1, 2, 0, 0, 0, 0, none, none⟩ = false := by
  constructor
  · rw [dateAddDTD_naive_sec false 1 1 2 3600]
    rw [show fromdeltaDate false false
        ((toOrd ⟨1, 1, 2⟩ - 1) * 86400000000 + 3600 * 1000000) =
        some ⟨1, 1, 2, 0, 0, 0, 0, none, none⟩ from by decide]
    simp only [Option.bind]
    rw [dateSubDTD_naive_sec false 1 1 2 3600]
    decide
  · decide

/-- Claim C6 (confirmed): a temporal value stored without an offset equals
the value with the same wall-clock fields and offset +00:00 (`_get_operands`
treats the naive side as UTC for the comparison only), and `_get_operands`
returns either the operand itself or a copy with offset zero, leaving the
stored operands untouched. -/
theorem c6_theorem :
    (∀ (dtY mo d h mi s us : Int) (xy : Option Int),
      xdtEqB ⟨dtY, mo, d, h, mi, s, us, none, xy⟩
        ⟨dtY, mo, d, h, mi, s, us, some 0, xy⟩ = true) ∧
    (∀ a b : XDT, (getOperandsPair a b).1 = a ∨
      (getOperandsPair a b).1 = { a with tz := some 0 }) ∧
    (∀ a b : XDT, (getOperandsPair a b).2 = b ∨
      (getOperandsPair a b).2 = { b with tz := some 0 }) := by
  refine ⟨?_, ?_, ?_⟩
  · intro dtY mo d h mi s us xy
    simp [xdtEqB, getOperandsPair, dtEqOperands, instantMicro, yearProp]
  · intro a b
    unfold getOperandsPair
    split_ifs <;> simp
  · intro a b
    unfold getOperandsPair
    split_ifs <;> simp

theorem succDay_y_cases (y m d : Int) :
    (succDay ⟨y, m, d⟩).y = y ∨ (succDay ⟨y, m, d⟩).y = y + 1 := by
  unfold succDay
  split_ifs <;> simp

theorem mkAbstractDT_year_zero (ver : Bool) (mo d h mi s us : Int) (tz : Option Int) :
    mkAbstractDT ver 0 mo d h mi s us tz = none := by
  simp only [mkAbstractDT]
  norm_num

theorem mkAbstractDT_some_year (ver : Bool) (year mo d h mi s us : Int)
    (tz : Option Int) (x : XDT) (hx : mkAbstractDT ver year mo d h mi s us tz = some x) :
    yearProp x ≠ 0 := by
  simp only [mkAbstractDT] at hx
  by_cases h1 : 1 ≤ year ∧ year ≤ 9999
  · rw [if_pos h1] at hx
    split_ifs at hx
    all_goals first
      | exact Option.noConfusion hx
      | (obtain rfl := Option.some.inj hx
         simp only [yearProp, addOneDayXDT, Option.getD_some, Option.getD_none]
         first
           | omega
           | (rcases succDay_y_cases year mo d with hc | hc <;> simp only [hc] <;> omega))
  · rw [if_neg h1] at hx
    by_cases h0 : year = 0
    · rw [if_pos h0] at hx
      exact Option.noConfusion hx
    · rw [if_neg h0] at hx
      split_ifs at hx
      all_goals first
        | exact Option.noConfusion hx
        | (obtain rfl := Option.some.inj hx
           simp only [yearProp, addOneDayXDT, Option.getD_some, Option.getD_none]
           exact h0)

/-- Claim C9 (confirmed): building any temporal value with internal year 0
fails with an error, and every successfully constructed temporal value has a
nonzero `year` property, so year 0 is never representable (this covers the
lexical path too, which goes through the same constructor after the
XSD-1.1 shift of nonpositive lexical years). -/
theorem c9_theorem :
    (∀ (ver : Bool) (mo d h mi s us : Int) (tz : Option Int),
      mkAbstractDT ver 0 mo d h mi s us tz = none) ∧
    (∀ (ver : Bool) (year mo d h mi s us : Int) (tz : Option Int) (x : XDT),
      mkAbstractDT ver year mo d h mi s us tz = some x → yearProp x ≠ 0) :=
  ⟨mkAbstractDT_year_zero, mkAbstractDT_some_year⟩

theorem c9_witness :
    mkAbstractDT false 0 1 1 0 0 0 0 none = none ∧
    yearProp ⟨2000, 1, 1, 0, 0, 0, 0, none, none⟩ ≠ 0 :=
  ⟨c9_theorem.1 false 1 1 0 0 0 0 none,
    c9_theorem.2 false 2000 1 1 0 0 0 0 none ⟨2000, 1, 1, 0, 0, 0, 0, none, none⟩
      (by decide)⟩

/-- Claim C2 as stated is false: comparing YearMonthDuration(months=1) with
DayTimeDuration(seconds=28*86400) raises a TypeError (modelled `none`)
instead of returning false, in both operand orders. -/
theorem c2_counterexample :
    durLt DurKind.yearMonth 1 0 DurKind.dayTime 0 2419200 = none ∧
    durGt DurKind.yearMonth 1 0 DurKind.dayTime 0 2419200 = none ∧
    durLt DurKind.dayTime 0 2419200 DurKind.yearMonth 1 0 = none ∧
    durGt DurKind.dayTime 0 2419200 DurKind.yearMonth 1 0 = none :=
  ⟨rfl, rfl, rfl, rfl⟩

/-- Claim C2 (amended): with base-class Duration values, one month versus
28 days compares as neither smaller nor greater — `<` and `>` both return
false in both operand orders, without an error; the YearMonthDuration
versus DayTimeDuration comparison of the original claim raises a
TypeError instead. -/
theorem pyTrunc_zero : pyTrunc 0 = 0 := by
  norm_num [pyTrunc]

theorem durAnchorMicro_month (ay am : Int) :
    durAnchorMicro 1 0 ay am = months2days ay am 1 * 86400000000 := by
  simp only [durAnchorMicro, pyTrunc_zero, Int.cast_zero, sub_zero, mul_zero,
    zero_mul, sub_self]
  ring

theorem pyTrunc_numeral_2419200 : pyTrunc (2419200 : ℚ) = 2419200 := by
  norm_num [pyTrunc]

theorem durAnchorMicro_28days (ay am : Int) :
    durAnchorMicro 0 2419200 ay am = 2419200000000 := by
  simp only [durAnchorMicro, pyTrunc_numeral_2419200]
  rw [show months2days ay am 0 = 0 from by simp [months2days]]
  rw [show ((2419200 : ℚ) - ((2419200 : Int) : ℚ)) * 1000000 = 0 from by norm_num]
  rw [pyTrunc_zero]
  ring

theorem c2_theorem :
    durLt DurKind.general 1 0 DurKind.general 0 2419200 = some false ∧
    durGt DurKind.general 1 0 DurKind.general 0 2419200 = some false ∧
    durLt DurKind.general 0 2419200 DurKind.general 1 0 = some false ∧
    durGt DurKind.general 0 2419200 DurKind.general 1 0 = some false := by
  have h1 : durAnchorMicro 1 0 1696 9 = 2592000000000 := by
    rw [durAnchorMicro_month]; decide
  have h2 : durAnchorMicro 1 0 1697 2 = 2419200000000 := by
    rw [durAnchorMicro_month]; decide
  have h3 : durAnchorMicro 1 0 1903 3 = 2678400000000 := by
    rw [durAnchorMicro_month]; decide
  have h4 : durAnchorMicro 1 0 1903 7 = 2678400000000 := by
    rw [durAnchorMicro_month]; decide
  refine ⟨?_, ?_, ?_, ?_⟩ <;>
    simp only [durLt, durGt, compareDurationsB, durIsInstance, durAnchorMicro_28days,
      h1, h2, h3, h4] <;>
    decide

theorem mkDuration_zero_months (s : ℚ) : mkDuration 0 s = some (0, s) := by
  unfold mkDuration
  rw [if_neg]
  rintro (⟨_, h⟩ | ⟨h, _⟩) <;> exact absurd h (lt_irrefl 0)

/-- Claim C3 as stated is false: DayTimeDuration(seconds=1) * Decimal(1/2)
yields 1 second, not the exact scaled value 0.5. -/
theorem c3_counterexample :
    dtdMul 1 (1 / 2) = some (0, 1) ∧ (1 : ℚ) ≠ 1 * (1 / 2) := by
  constructor
  · rw [dtdMul, show pyTrunc ((1 : ℚ) * (1 / 2) + 1 / 2) = 1 from by norm_num [pyTrunc],
      mkDuration_zero_months]
    norm_num
  · norm_num

/-- Claim C3 (amended): multiplying or dividing a day-time duration by a
number scales the seconds and rounds them to a whole number of seconds via
int(float(x) + 0.5); the result always has integer seconds (denominator 1),
so exact fractional decimal seconds are not preserved. -/
theorem c3_theorem :
    (∀ s f : ℚ, dtdMul s f = some (0, ((pyTrunc (s * f + 1 / 2) : Int) : ℚ)) ∧
      (∀ p : Int × ℚ, dtdMul s f = some p → p.2.den = 1)) ∧
    (∀ s f : ℚ, f ≠ 0 →
      dtdDivNum s f = some (0, ((pyTrunc (s / f + 1 / 2) : Int) : ℚ)) ∧
      (∀ p : Int × ℚ, dtdDivNum s f = some p → p.2.den = 1)) := by
  constructor
  · intro s f
    constructor
    · rw [dtdMul, mkDuration_zero_months]
    · intro p hp
      rw [dtdMul, mkDuration_zero_months] at hp
      obtain rfl := Option.some.inj hp
      exact Rat.den_intCast _
  · intro s f hf
    constructor
    · rw [dtdDivNum, if_neg hf, mkDuration_zero_months]
    · intro p hp
      rw [dtdDivNum, if_neg hf, mkDuration_zero_months] at hp
      obtain rfl := Option.some.inj hp
      exact Rat.den_intCast _

theorem c3_witness :
    dtdDivNum 1 2 = some (0, ((pyTrunc ((1 : ℚ) / 2 + 1 / 2) : Int) : ℚ)) :=
  (c3_theorem.2 1 2 (by norm_num)).1

theorem mkDuration_inv (m : Int) (s : ℚ) (p : Int × ℚ)
    (h : mkDuration m s = some p) : invDuration p.1 p.2 := by
  unfold mkDuration at h
  split_ifs at h with hc
  all_goals first
    | exact Option.noConfusion h
    | (obtain rfl := Option.some.inj h
       push_neg at hc
       obtain ⟨hc1, hc2⟩ := hc
       unfold invDuration
       rcases le_or_lt 0 m with hm | hm
       · rcases le_or_lt 0 s with hs | hs
         · exact Or.inr ⟨hm, hs⟩
         · exact Or.inl ⟨hc1 hs, le_of_lt hs⟩
       · exact Or.inl ⟨le_of_lt hm, hc2 hm⟩)

/-- Claim C8 (confirmed): every duration value produced by any public
operation (construction, parsing, addition, subtraction, multiplication,
division) satisfies the sign invariant: months and seconds are both ≤ 0 or
both ≥ 0.  Every producing path ends in Duration.__init__, which rejects
strictly opposite signs. -/
theorem c8_theorem :
    (∀ (m : Int) (s : ℚ) (p : Int × ℚ), mkDuration m s = some p →
      invDuration p.1 p.2) ∧
    (∀ (kind : DurKind) (sign : Bool) (years months days hours minutes : Int)
        (sec : ℚ) (p : Int × ℚ),
      durationParse kind sign years months days hours minutes sec = some p →
      invDuration p.1 p.2) ∧
    (∀ (m1 m2 : Int) (p : Int × ℚ), ymdAdd m1 m2 = some p → invDuration p.1 p.2) ∧
    (∀ (m1 m2 : Int) (p : Int × ℚ), ymdSub m1 m2 = some p → invDuration p.1 p.2) ∧
    (∀ (m : Int) (f : ℚ) (p : Int × ℚ), ymdMul m f = some p → invDuration p.1 p.2) ∧
    (∀ (m : Int) (f : ℚ) (p : Int × ℚ), ymdDivNum m f = some p → invDuration p.1 p.2) ∧
    (∀ (s1 s2 : ℚ) (p : Int × ℚ), dtdAdd s1 s2 = some p → invDuration p.1 p.2) ∧
    (∀ (s1 s2 : ℚ) (p : Int × ℚ), dtdSub s1 s2 = some p → invDuration p.1 p.2) ∧
    (∀ (s f : ℚ) (p : Int × ℚ), dtdMul s f = some p → invDuration p.1 p.2) ∧
    (∀ (s f : ℚ) (p : Int × ℚ), dtdDivNum s f = some p → invDuration p.1 p.2) := by
  refine ⟨mkDuration_inv, ?_, ?_, ?_, ?_, ?_, ?_, ?_, ?_, ?_⟩
  · intro kind sign years months days hours minutes sec p hp
    cases kind with
    | general =>
      simp only [durationParse] at hp
      exact mkDuration_inv _ _ _ hp
    | yearMonth =>
      simp only [durationParse] at hp
      split_ifs at hp
      all_goals first
        | exact Option.noConfusion hp
        | exact mkDuration_inv _ _ _ hp
    | dayTime =>
      simp only [durationParse] at hp
      split_ifs at hp
      all_goals first
        | exact Option.noConfusion hp
        | exact mkDuration_inv _ _ _ hp
  · intro m1 m2 p hp
    exact mkDuration_inv _ _ _ hp
  · intro m1 m2 p hp
    exact mkDuration_inv _ _ _ hp
  · intro m f p hp
    exact mkDuration_inv _ _ _ hp
  · intro m f p hp
    unfold ymdDivNum at hp
    split_ifs at hp
    all_goals first
      | exact Option.noConfusion hp
      | exact mkDuration_inv _ _ _ hp
  · intro s1 s2 p hp
    exact mkDuration_inv _ _ _ hp
  · intro s1 s2 p hp
    exact mkDuration_inv _ _ _ hp
  · intro s f p hp
    exact mkDuration_inv _ _ _ hp
  · intro s f p hp
    unfold dtdDivNum at hp
    split_ifs at hp
    all_goals first
      | exact Option.noConfusion hp
      | exact mkDuration_inv _ _ _ hp

theorem c8_witness : invDuration 5 3 :=
  c8_theorem.1 5 3 (5, 3) (by norm_num [mkDuration])

/-- Claim C4 as stated is false: the year-month duration variant overrides
the formatter, and a zero YearMonthDuration renders as "P0M", not "PT0S". -/
theorem c4_counterexample :
    yearMonthDurationToString 0 = "P0M" ∧ yearMonthDurationToString 0 ≠ "PT0S" := by
  constructor <;> decide

/-- Claim C4 (amended): a zero duration renders as "PT0S" for the general
Duration formatter and for DayTimeDuration (which inherits it); the
YearMonthDuration variant renders a zero value as "P0M". -/
theorem c4_theorem :
    durationToString 0 0 = "PT0S" ∧ dayTimeDurationToString 0 = "PT0S" ∧
    yearMonthDurationToString 0 = "P0M" := by
  have hz : durationToString 0 0 = "PT0S" := by
    have e0 : pyTrunc ((|(0 : ℚ)|) / 86400) = 0 := by norm_num [pyTrunc]
    have e1 : pyTrunc ((|(0 : ℚ)|) / 3600) = 0 := by norm_num [pyTrunc]
    have e2 : pyTrunc ((|(0 : ℚ)|) / 60) = 0 := by norm_num [pyTrunc]
    simp only [durationToString, e0, e1, e2]
    norm_num
    decide
  exact ⟨hz, hz, by decide⟩

/-- Claim C5 as stated is false: the minutes field of "+05:70" is outside
00..59, yet Timezone.fromstring accepts it (the only check is on the
combined offset), yielding +6:10 = 370 minutes. -/
theorem c5_counterexample : timezoneFromstring "+05:70" = some 370 := by decide

/-- Claim C5 (amended): timezone-offset parsing accepts "Z" and any
hours:minutes string whose int fields give a combined offset within
±14:00; a minutes field outside 00..59 is still accepted when the total is
in range, and every accepted string yields an offset within ±840 minutes. -/
theorem c5_theorem :
    timezoneFromstring "Z" = some 0 ∧
    timezoneFromstring "+05:70" = some 370 ∧
    timezoneFromstring "+15:00" = none ∧
    timezoneFromstring "14:00" = some 840 ∧
    timezoneFromstring "-14:01" = none ∧
    (∀ (s : String) (off : Int),
      timezoneFromstring s = some off → -840 ≤ off ∧ off ≤ 840) := by
  refine ⟨by decide, by decide, by decide, by decide, by decide, ?_⟩
  intro s off h
  simp only [timezoneFromstring] at h
  rcases hsplit : splitOnChar ':' (stripChars s.data) with _ | ⟨a, _ | ⟨b, _ | _⟩⟩ <;>
    simp only [hsplit] at h
  · split_ifs at h
    all_goals first
      | exact Option.noConfusion h
      | (obtain rfl := Option.some.inj h; omega)
  · split_ifs at h
    all_goals first
      | exact Option.noConfusion h
      | (obtain rfl := Option.some.inj h; omega)
  · rcases hpa : pyIntChars a with _ | va <;> rcases hpb : pyIntChars b with _ | vb <;>
      simp only [hpa, hpb] at h
    all_goals
      split_ifs at h
    all_goals first
      | exact Option.noConfusion h
      | (obtain rfl := Option.some.inj h; omega)
  · split_ifs at h
    all_goals first
      | exact Option.noConfusion h
      | (obtain rfl := Option.some.inj h; omega)

theorem c5_witness :
    -840 ≤ (370 : Int) ∧ (370 : Int) ≤ 840 :=
  c5_theorem.2.2.2.2.2 "+05:70" 370 (by decide)

/-- Claim C7 (confirmed): when both operands are untyped atomics, the
arithmetic and ordering operators convert both raw strings to floats
(UntypedAtomic("5") + UntypedAtomic("3") is the float 8.0, and ordering of
"1.0" and "1" behaves numerically), while equality compares the raw string
payloads without numeric conversion ("1.0" and "1" are unequal). -/
theorem c7_theorem :
    untypedAdd "5" "3" = some 8 ∧
    untypedEqB "1.0" "1" = false ∧
    untypedLe "1.0" "1" = some true ∧
    untypedLt "1.0" "1" = some false ∧
    (∀ a b : String, untypedEqB a b = (a == b)) ∧
    (∀ a b : String,
      untypedAdd a b = (untypedOperandsFloat a b).map fun p => p.1 + p.2) ∧
    (∀ a b : String,
      untypedLt a b = (untypedOperandsFloat a b).map fun p => decide (p.1 < p.2)) := by
  have h5 : floatParse "5".data = some (5, 0) := by decide
  have h3 : floatParse "3".data = some (3, 0) := by decide
  have h10 : floatParse "1.0".data = some (10, 1) := by decide
  have h1 : floatParse "1".data = some (1, 0) := by decide
  refine ⟨?_, by decide, ?_, ?_, fun a b => rfl, fun a b => rfl, fun a b => rfl⟩
  · simp only [untypedAdd, untypedOperandsFloat, h5, h3, Option.map_some]
    norm_num [ratOfParts]
  · simp only [untypedLe, untypedOperandsFloat, h10, h1, Option.map_some,
      Option.some.injEq, decide_eq_true_eq]
    norm_num [ratOfParts]
  · simp only [untypedLt, untypedOperandsFloat, h10, h1, Option.map_some,
      Option.some.injEq, decide_eq_false_iff_not]
    norm_num [ratOfParts]

/-- Claim C10 (confirmed): the xs:long and xs:int lexical constructors
accept exactly the ranges [-2^127, 2^127) and [-2^63, 2^63), wider than the
64-bit and 32-bit ranges checked by the builtin registry validators for
'long' and 'int'; in particular 2^63 passes the 'long' constructor but
fails the 'long' registry validator. -/
theorem c10_theorem :
    (∀ x : Int, longConstructorCast x =
      if -(2 ^ 127) ≤ x ∧ x < 2 ^ 127 then some x else none) ∧
    (∀ x : Int, intConstructorCast x =
      if -(2 ^ 63) ≤ x ∧ x < 2 ^ 63 then some x else none) ∧
    (∀ x : Int, longValidator x = true ↔ -(2 ^ 63) ≤ x ∧ x < 2 ^ 63) ∧
    (∀ x : Int, intValidator x = true ↔ -(2 ^ 31) ≤ x ∧ x < 2 ^ 31) ∧
    longConstructorCast (2 ^ 63) = some (2 ^ 63) ∧
    longValidator (2 ^ 63) = false := by
  refine ⟨?_, ?_, ?_, ?_, by decide, by decide⟩
  · intro x
    simp only [longConstructorCast, cast_to_integer, decide_eq_true_eq]
    split_ifs <;> first | rfl | omega
  · intro x
    simp only [intConstructorCast, cast_to_integer, decide_eq_true_eq]
    split_ifs <;> first | rfl | omega
  · intro x
    simp only [longValidator, decide_eq_true_eq]
  · intro x
    simp only [intValidator, decide_eq_true_eq]
